import Mathlib

/-!
Verification of the historical-data acquisition and caching subsystem of the
WeatherApp repository (src/historical_data_fetch.py, src/db_cache.py, and the
historical-weather coordinator block of src/WeatherApp.py).

Shallow embedding conventions:
* Calendar days are represented by their day number (days since the Unix
  epoch); a civil date (y, m, d) corresponds to the day number computed by
  `days_from_civil` below.  Unix timestamps are integers (seconds).
* Python's naive `datetime(y, m, d, h, 0, 0).timestamp()` interprets the wall
  time in the process's local timezone; we model the local timezone as a fixed
  UTC offset `o` (seconds east of UTC), so the naive timestamp of local
  midnight of day `d` is `86400 * d - o`.  Timezone-aware
  `datetime(..., tzinfo=timezone.utc).timestamp()` does not involve `o`.
* Wall-clock instants seen by the rate limiter (`time.time()` floats) are
  modelled as rationals.
* The sqlite cache table (for one fixed (lat, lon)) is a list of rows; python
  dicts keyed by timestamps are association lists with `mapLookup` returning
  the first binding.
* Network effects are modelled by an oracle `net` mapping a request to an
  outcome: a connection-level error (requests.RequestException raised by
  `requests.get`), or a response with an HTTP status code and an optional
  parsed JSON body (`none` = malformed body, whose JSONDecodeError is a
  RequestException subclass and is caught by the source's handler).
-/

/-- Day number (days since 1970-01-01) of a civil date, following the standard
civil-from-days conversion used by Python's `datetime.date`.  Only used to
connect concrete civil dates in witnesses to their day numbers. -/
def days_from_civil (y m d : Nat) : Int :=
  let y' := if m ≤ 2 then y - 1 else y
  let era := y' / 400
  let yoe := y' - era * 400
  let mp := (m + 9) % 12
  let doy := (153 * mp + 2) / 5 + d - 1
  let doe := yoe * 365 + yoe / 4 - yoe / 100 + doy
  ((era * 146097 + doe : Nat) : Int) - 719468

/-- Unix timestamp of midnight UTC of day `d` (the spec's canonical DayKey). -/
def utcMidnight (d : Int) : Int := 86400 * d

/-- historical_data_fetch.py line 73 and WeatherApp.py line 190:
`int(datetime(y, m, d, 12, 0, 0, tzinfo=timezone.utc).timestamp())`,
the noon-UTC instant used as the API query parameter for day `d`. -/
def fetchInstant (d : Int) : Int := 86400 * d + 43200

/-- WeatherApp.py lines 174-175, 191, 235, 251, 393:
`int(datetime(y, m, d, 0, 0, 0).timestamp())` — a NAIVE datetime, interpreted
in the process's local timezone (fixed UTC offset `o` seconds east): the
timestamp of local midnight of day `d`.  This is the DB cache key. -/
def dbKeyLocal (o d : Int) : Int := 86400 * d - o

/-- WeatherApp.py line 234: `datetime.fromtimestamp(ts, tz=timezone.utc).date()`
— the UTC calendar day containing instant `ts` (floor division; `Int.ediv`
coincides with floor division for the positive divisor 86400; `/` on `Int`
is Euclidean division). -/
def utcDayOf (ts : Int) : Int := ts / 86400

/-- WeatherApp.py lines 234-235: the DB key the merge step stores a fetched
instant under: local midnight of the instant's UTC date. -/
def mergeDbKey (o ts : Int) : Int := dbKeyLocal o (utcDayOf ts)

/-- The inclusive list of day numbers from `startDay` to `stopDay`, mirroring
the `while current_day <= end_date: ... current_day += timedelta(days=1)`
loops (historical_data_fetch.py lines 71-76, WeatherApp.py lines 188-195). -/
def dayRange (startDay stopDay : Int) : List Int :=
  (List.range (stopDay - startDay + 1).toNat).map (fun (i : ℕ) => startDay + (i : Int))

/-! ## RateLimiter (historical_data_fetch.py lines 15-34) -/

/-- State of `RateLimiter`: `calls_per_minute` and `interval` from `__init__`,
plus the deque `calls_timestamps` (front = oldest). -/
structure RateLimiter where
  calls_per_minute : ℕ
  calls_timestamps : List ℚ
  interval : ℚ

/-- `RateLimiter.__init__(calls_per_minute)`: empty deque, 60-second interval. -/
def RateLimiter.init (cpm : ℕ) : RateLimiter :=
  { calls_per_minute := cpm, calls_timestamps := [], interval := 60 }

/-- Lines 25-26: `while self.calls_timestamps and self.calls_timestamps[0] <=
now - self.interval: self.calls_timestamps.popleft()` — drop stale timestamps
from the front of the deque. -/
def trimCalls (interval now : ℚ) (q : List ℚ) : List ℚ :=
  q.dropWhile (fun t => decide (t ≤ now - interval))

/-- One iteration of the `while True` body of `wait_for_slot` at wall-clock
time `now`: trim the front, then either append `now` and return (admitted =
`true`), or leave the trimmed deque and go back to sleep (admitted =
`false`). -/
def RateLimiter.wait_iteration (rl : RateLimiter) (now : ℚ) : RateLimiter × Bool :=
  let trimmed := trimCalls rl.interval now rl.calls_timestamps
  if trimmed.length < rl.calls_per_minute then
    ({ rl with calls_timestamps := trimmed ++ [now] }, true)
  else
    ({ rl with calls_timestamps := trimmed }, false)

/-- Run a sequence of `wait_for_slot` loop iterations at the given (monotone)
wall-clock times, logging `(now, deque before, deque after)` for every
iteration that admits a call. -/
def runLog (rl : RateLimiter) : List ℚ → List (ℚ × List ℚ × List ℚ)
  | [] => []
  | now :: rest =>
    let step := rl.wait_iteration now
    if step.2 then (now, rl.calls_timestamps, step.1.calls_timestamps) :: runLog step.1 rest
    else runLog step.1 rest

/-- The trim-and-length-check portion of a `wait_for_slot` iteration executed
on a shared deque `q` WITHOUT holding any lock (the source's `RateLimiter` has
no lock at all): returns the trimmed deque and whether this thread observed a
free slot. -/
def wait_check (cpm : ℕ) (interval now : ℚ) (q : List ℚ) : List ℚ × Bool :=
  let trimmed := trimCalls interval now q
  (trimmed, decide (trimmed.length < cpm))

/-- The `self.calls_timestamps.append(now)` portion of an admission. -/
def wait_append (now : ℚ) (q : List ℚ) : List ℚ := q ++ [now]

/-- A legal interleaving of two threads concurrently executing the (lockless)
`wait_for_slot` body on the shared deque `q0` at the same wall-clock time:
thread A runs its trim+check, thread B runs its trim+check, then each thread
that observed a free slot appends.  Every step is an operation the source
performs; no mutual exclusion prevents this schedule. -/
def racyInterleaving (cpm : ℕ) (now : ℚ) (q0 : List ℚ) : List ℚ × Bool × Bool :=
  let a := wait_check cpm 60 now q0
  let b := wait_check cpm 60 now a.1
  let q3 := if a.2 then wait_append now b.1 else b.1
  let q4 := if b.2 then wait_append now q3 else q3
  (q4, a.2, b.2)

/-! ## Single-day fetch (historical_data_fetch.py lines 36-46) -/

/-- Observable effects of `get_historical_weather_for_day`, in program order:
the `rate_limiter.wait_for_slot()` call and the `requests.get` call. -/
inductive FetchEvent where
  | admitSlot
  | httpGet
deriving DecidableEq

/-- Outcome of the `requests.get` call: a connection-level
`requests.exceptions.RequestException`, or an HTTP response with a status code
and an optional parsed JSON body (`none` models a malformed body, whose
`JSONDecodeError` is a `RequestException` subclass, hence also caught). -/
inductive NetResult (α : Type) where
  | connError
  | response (status : ℕ) (body : Option α)
deriving DecidableEq

/-- A completed single-day fetch: its ordered effect trace and its returned
`(dt_unix_timestamp, data-or-None)` pair. -/
structure DayFetch (α : Type) where
  events : List FetchEvent
  result : Int × Option α
deriving DecidableEq

/-- `get_historical_weather_for_day(lat, lon, dt_unix_timestamp, api_key,
rate_limiter)`: first waits for a rate-limiter slot, then issues one GET.
`response.raise_for_status()` raises (a `RequestException`, caught by the
`except` clause, line 44) exactly when the status code is ≥ 400; otherwise the
body is parsed and returned.  The function is total: every outcome yields a
`(timestamp, Option data)` pair, never an exception. -/
def get_historical_weather_for_day {α : Type} (ts : Int) (net : NetResult α) : DayFetch α :=
  { events := [FetchEvent.admitSlot, FetchEvent.httpGet],
    result := (ts,
      match net with
      | NetResult.connError => none
      | NetResult.response s body => if 400 ≤ s then none else body) }

/-- Lines 93-99: collect completed futures into the `results` dict — a pair
whose data is `None` is skipped (absent entries simply omitted). -/
def collectResults {α : Type} (outs : List (DayFetch α)) : List (Int × α) :=
  outs.filterMap (fun df => df.result.2.map (fun d => (df.result.1, d)))

/-- Lines 86-91: `for ts in all_timestamps: if calls_made >= max_total_calls:
break; futures.append(executor.submit(...)); calls_made += 1` — the list of
timestamps actually submitted. -/
def submitLoop (maxCalls : ℕ) : ℕ → List Int → List Int
  | _, [] => []
  | made, ts :: rest =>
    if maxCalls ≤ made then [] else ts :: submitLoop maxCalls (made + 1) rest

/-- Line 66: `if not API_KEY` — the module-level `API_KEY =
os.getenv("OPENWEATHER_API_KEY")` is `None` (unset) or an empty string, both
falsy. -/
def moduleKeyMissing : Option String → Bool
  | none => true
  | some s => s == ""

/-- Result of one `get_historical_weather_in_range_concurrently` call: the
results dict, the submitted timestamps, and how many HTTP requests and
rate-limiter admissions were performed in total. -/
structure FetchRun (α : Type) where
  results : List (Int × α)
  submitted : List Int
  netCalls : ℕ
  admits : ℕ

/-- `get_historical_weather_in_range_concurrently(lat, lon, start_date_str,
end_date_str, api_key)` (lines 48-104).  `moduleKey` is the module-level
`API_KEY` global checked by the guard on line 66; `apiKeyArg` is the `api_key`
parameter, which is only interpolated into the request URL (so it reaches the
network oracle but is never itself checked).  One noon-UTC timestamp per day
in the inclusive range is generated; at most `max_total_calls = 240` of them
are submitted; each submitted task admits one rate-limiter slot and performs
one GET; results are collected with `None` data skipped.  Completion order of
`as_completed` does not affect the keyed result set, so workers are collected
in submission order here. -/
def get_historical_weather_in_range_concurrently {α : Type} (moduleKey : Option String)
    (startDay stopDay : Int) (apiKeyArg : String) (net : String → Int → NetResult α) :
    FetchRun α :=
  if moduleKeyMissing moduleKey then
    { results := [], submitted := [], netCalls := 0, admits := 0 }
  else
    let all_timestamps := (dayRange startDay stopDay).map fetchInstant
    let submitted := submitLoop 240 0 all_timestamps
    let outs := submitted.map (fun ts => get_historical_weather_for_day ts (net apiKeyArg ts))
    { results := collectResults outs,
      submitted := submitted,
      netCalls := (outs.map (fun df => df.events.count FetchEvent.httpGet)).sum,
      admits := (outs.map (fun df => df.events.count FetchEvent.admitSlot)).sum }

/-! ## Cache adapter (db_cache.py) -/

/-- One row of the `weather_cache` table for a fixed (lat, lon): data
timestamp (day key), fetch timestamp, and the serialized data (`none` models
a NULL/empty `data` column, which every reader treats as absent). -/
structure CacheRow (α : Type) where
  data_ts : Int
  fetch_ts : Int
  data : Option α
deriving DecidableEq

/-- db_cache.py line 10. -/
def CACHE_DURATION_SECONDS : Int := 43200

/-- Keep whichever of a candidate row and a previously selected row has the
larger `fetch_ts` (ties resolved toward the candidate). -/
def selectBetter {α : Type} (a : CacheRow α) : Option (CacheRow α) → Option (CacheRow α)
  | none => some a
  | some b => if b.fetch_ts ≤ a.fetch_ts then some a else some b

/-- `ORDER BY fetch_ts DESC LIMIT 1`: a row with maximal `fetch_ts` (ties, for
which SQL guarantees no particular choice, resolved toward the front). -/
def selectLatest {α : Type} : List (CacheRow α) → Option (CacheRow α)
  | [] => none
  | r :: rest => selectBetter r (selectLatest rest)

/-- `get_cache(lat, lon, target_data_ts, ...)` (db_cache.py lines 48-76) for a
fixed (lat, lon), at wall-clock time `now`.  `target_data_ts = none` selects
the most recently fetched row with `fetch_ts > now - CACHE_DURATION_SECONDS`;
`target_data_ts = some k` selects a row with `data_ts = k` with no condition
on `fetch_ts`.  A row with NULL/empty data yields `None` (line 76). -/
def get_cache {α : Type} (rows : List (CacheRow α)) (now : Int)
    (target_data_ts : Option Int) : Option α :=
  match target_data_ts with
  | none =>
    (selectLatest (rows.filter (fun r =>
      decide (now - CACHE_DURATION_SECONDS < r.fetch_ts)))).bind (fun r => r.data)
  | some k => (rows.find? (fun r => decide (r.data_ts = k))).bind (fun r => r.data)

/-- `get_cache_for_range(lat, lon, start_date_ts, end_date_ts)` (lines 78-90):
rows with `data_ts BETWEEN a AND b`, skipping falsy data, keyed by `data_ts`. -/
def get_cache_for_range {α : Type} (rows : List (CacheRow α)) (a b : Int) :
    List (Int × α) :=
  rows.filterMap (fun r =>
    if decide (a ≤ r.data_ts) && decide (r.data_ts ≤ b) then
      r.data.map (fun d => (r.data_ts, d))
    else none)

/-! ## Coordinator (WeatherApp.py, historical-weather block, lines 171-275) -/

/-- Python dict lookup on an association list (first binding wins). -/
def mapLookup {α : Type} (m : List (Int × α)) (k : Int) : Option α :=
  (m.find? (fun p => decide (p.1 = k))).map Prod.snd

/-- Lines 174-183: `historical_temps_raw_data` populated from
`db_cache.get_cache_for_range(lat, lon, start_ts_at_midnight,
end_ts_at_midnight)` where both bounds are naive local midnights. -/
def coordinator_cached_map {α : Type} (o startDay stopDay : Int)
    (rows : List (CacheRow α)) : List (Int × α) :=
  get_cache_for_range rows (dbKeyLocal o startDay) (dbKeyLocal o stopDay)

/-- Lines 186-195: the days of the range whose local-midnight DB key is absent
from the in-memory map. -/
def coordinator_missing_days {α : Type} (o startDay stopDay : Int)
    (m0 : List (Int × α)) : List Int :=
  (dayRange startDay stopDay).filter (fun d => (mapLookup m0 (dbKeyLocal o d)).isNone)

/-- Lines 197-229: `if missing_dates:` invoke
`get_historical_weather_in_range_concurrently` for the FULL original range
(`start_date.strftime(...)`, `end_date.strftime(...)`): the instants the
fetcher derives and processes are one noon-UTC timestamp per day of the whole
range, independent of which days were cached (the source's own comments note
"it might refetch data already in cache ... we'll run it for the *full range*
again").  If nothing is missing the fetcher is not invoked at all. -/
def coordinator_api_instants {α : Type} (o startDay stopDay : Int)
    (m0 : List (Int × α)) : List Int :=
  if coordinator_missing_days o startDay stopDay m0 = [] then []
  else (dayRange startDay stopDay).map fetchInstant

/-- Lines 232-242: merge the fetched `(instant, data)` pairs into the
in-memory map: for each pair, derive the DB key from the instant's UTC date
(local midnight of that date); only if that key is not yet in the map, insert
it and persist it via `db_cache.set_cache`.  Returns the final map and the
list of cache writes performed, in processing order. -/
def mergeFetched {α : Type} (o : Int) (m0 : List (Int × α)) :
    List (Int × α) → List (Int × α) × List (Int × α)
  | [] => (m0, [])
  | p :: rest =>
    let key := mergeDbKey o p.1
    if (mapLookup m0 key).isSome then mergeFetched o m0 rest
    else
      let r := mergeFetched o ((key, p.2) :: m0) rest
      (r.1, (key, p.2) :: r.2)

/-- An hourly sample of a DayRecord: `some t` if the hour dict has a `temp`
field with value `t`, `none` otherwise. -/
abbrev HourSample := Option ℚ

/-- A raw API response as stored in the map: `some hours` if the response dict
is truthy and has a `data` field (the hourly list), `none` otherwise. -/
abbrev ApiData := Option (List HourSample)

/-- Python's `round(x, 1)` rounds half to even; modelled exactly on rationals:
the nearest integer to `q`, ties to the even integer. -/
def round_half_even (q : ℚ) : Int :=
  let f := q.num / (q.den : Int)
  if q - f < 1/2 then f
  else if (1:ℚ)/2 < q - f then f + 1
  else if f % 2 = 0 then f else f + 1

/-- `round(avg_temp, 1)`: round to one decimal place, half to even. -/
def round1 (q : ℚ) : ℚ := (round_half_even (10 * q) : ℚ) / 10

/-- Lines 247-273: for each day of the range in ascending order, look up its
local-midnight key; if the record is present, truthy, has a `data` field with
at least one entry, and at least one entry has a `temp` field, emit
`(day, round(mean of temps, 1))`; otherwise emit nothing for that day.  (The
final `sorted(..., key=Date)` on line 272 is the identity here: the list is
built in ascending day order.) -/
def assembleDay (o : Int) (m : List (Int × ApiData)) (d : Int) : Option (Int × ℚ) :=
  match mapLookup m (dbKeyLocal o d) with
  | some (some hours) =>
    if 0 < hours.length then
      if 0 < (hours.filterMap id).length then
        some (d, round1 ((hours.filterMap id).sum / (((hours.filterMap id).length : ℕ) : ℚ)))
      else none
    else none
  | _ => none

def assembleSeries (o startDay stopDay : Int) (m : List (Int × ApiData)) :
    List (Int × ℚ) :=
  (dayRange startDay stopDay).filterMap (assembleDay o m)

/-- The usable temperatures the assembly step sees for map value `v`. -/
def dayTemps (v : Option ApiData) : List ℚ :=
  match v with
  | some (some hours) => hours.filterMap id
  | _ => []

/-- Concrete cache contents for the C2 scenario: a 10-day range (days 0-9)
with 3 cached days (1, 2, 3), UTC offset 0. -/
def c2CacheRows : List (CacheRow ℕ) :=
  [⟨86400, 1000, some 11⟩, ⟨172800, 1000, some 12⟩, ⟨259200, 1000, some 13⟩]

/-- Concrete cache contents for the C8 scenario: a row fetched at time 100
(fresh at lookup time 43250) and one fetched at time 50 (stale). -/
def c8CacheRows : List (CacheRow ℕ) :=
  [⟨0, 100, some 1⟩, ⟨86400, 50, some 2⟩]

/-- The spec's notion of a successful HTTP status, written from the spec's
words ("non-success HTTP status" is treated as failure; §6: "non-200 ...
treated as failure"): a 2xx code.  Stated only for comparison with the
source's `raise_for_status` behaviour, which treats exactly the statuses
≥ 400 as failure. -/
def specSuccessStatus (s : ℕ) : Bool := decide (200 ≤ s) && decide (s < 300)

/-! ## Helper lemmas -/

theorem trimCalls_sublist (i n : ℚ) (q : List ℚ) : List.Sublist (trimCalls i n q) q :=
  List.dropWhile_sublist _

theorem trimCalls_mem_gt {i n : ℚ} {q : List ℚ} (hq : q.Pairwise (· ≤ ·)) :
    ∀ t ∈ trimCalls i n q, n - i < t := by
  induction q with
  | nil => intro t ht; simp [trimCalls] at ht
  | cons a l ih =>
    intro t ht
    rw [trimCalls, List.dropWhile_cons] at ht
    simp only [decide_eq_true_eq] at ht
    by_cases h : a ≤ n - i
    · rw [if_pos h] at ht
      exact ih (List.pairwise_cons.mp hq).2 t ht
    · rw [if_neg h] at ht
      rcases List.mem_cons.mp ht with rfl | hmem
      · linarith [not_le.mp h]
      · have hle := (List.pairwise_cons.mp hq).1 t hmem
        linarith [not_le.mp h]

theorem runLog_spec (cpm : ℕ) : ∀ (nows : List ℚ) (rl : RateLimiter),
    rl.calls_per_minute = cpm → rl.interval = 60 →
    rl.calls_timestamps.Pairwise (· ≤ ·) →
    (∀ t ∈ rl.calls_timestamps, ∀ n ∈ nows, t ≤ n) →
    nows.Pairwise (· ≤ ·) →
    ∀ e ∈ runLog rl nows,
      e.2.2 = trimCalls 60 e.1 e.2.1 ++ [e.1] ∧ e.2.2.length ≤ cpm ∧
      ∀ t ∈ e.2.2, e.1 - 60 < t := by
  intro nows
  induction nows with
  | nil => intro rl _ _ _ _ _ e he; simp [runLog] at he
  | cons now rest ih =>
    intro rl hcpm hint hpw hbound hmono e he
    have hpwtrim : (trimCalls rl.interval now rl.calls_timestamps).Pairwise (· ≤ ·) :=
      hpw.sublist (trimCalls_sublist _ _ _)
    have hsubset : ∀ t ∈ trimCalls rl.interval now rl.calls_timestamps,
        t ∈ rl.calls_timestamps := fun t ht => (trimCalls_sublist _ _ _).subset ht
    rw [runLog] at he
    by_cases hadm : (trimCalls rl.interval now rl.calls_timestamps).length <
        rl.calls_per_minute
    · simp only [RateLimiter.wait_iteration, hadm, if_true] at he
      rcases List.mem_cons.mp he with rfl | he'
      · refine ⟨by rw [hint], ?_, ?_⟩
        · simp only [List.length_append, List.length_singleton]
          omega
        · intro t ht
          rcases List.mem_append.mp ht with ht' | ht'
          · have := trimCalls_mem_gt hpw t ht'
            rw [hint] at this
            exact this
          · rcases List.mem_singleton.mp ht' with rfl
            linarith
      · refine ih _ (by simpa using hcpm) (by simpa using hint) ?_ ?_
          (List.pairwise_cons.mp hmono).2 e he'
        · simp only
          refine List.pairwise_append.mpr ⟨hpwtrim, List.pairwise_singleton _ _, ?_⟩
          intro a ha b hb
          rcases List.mem_singleton.mp hb with rfl
          exact hbound a (hsubset a ha) b (List.mem_cons_self _ _)
        · simp only
          intro t ht n hn
          rcases List.mem_append.mp ht with ht' | ht'
          · exact hbound t (hsubset t ht') n (List.mem_cons_of_mem _ hn)
          · rcases List.mem_singleton.mp ht' with rfl
            exact (List.pairwise_cons.mp hmono).1 n hn
    · simp only [RateLimiter.wait_iteration, hadm, if_false] at he
      refine ih _ (by simpa using hcpm) (by simpa using hint) (by simpa using hpwtrim)
        ?_ (List.pairwise_cons.mp hmono).2 e he
      simp only
      intro t ht n hn
      exact hbound t (hsubset t ht) n (List.mem_cons_of_mem _ hn)

/-- C1: for every sequence of admissions through `RateLimiter.wait_for_slot`
(constructed with `calls_per_minute`, i.e. starting from `RateLimiter.init`),
run at nondecreasing wall-clock times, each admitted iteration (i) first
discards the stale timestamps (those ≤ 60 seconds before `now`) from the front
of the FIFO and appends exactly the one new timestamp `now`, and (ii) at the
moment of admission the FIFO holds at most `calls_per_minute` entries, all of
them within the trailing 60-second window. -/
theorem C1_rate_limiter_admission_invariant (cpm : ℕ) (nows : List ℚ)
    (hmono : nows.Pairwise (· ≤ ·)) :
    ∀ e ∈ runLog (RateLimiter.init cpm) nows,
      e.2.2 = trimCalls 60 e.1 e.2.1 ++ [e.1] ∧ e.2.2.length ≤ cpm ∧
      ∀ t ∈ e.2.2, e.1 - 60 < t :=
  runLog_spec cpm nows (RateLimiter.init cpm) rfl rfl (by simp [RateLimiter.init])
    (by simp [RateLimiter.init]) hmono

/-- Witness for C1 at `calls_per_minute = 1` and wall-clock times 0, 10, 100:
the iteration at time 10 blocks, the admissions at times 0 and 100 each leave
a FIFO of one fresh timestamp. -/
theorem C1_witness :
    ((100:ℚ), ([(0:ℚ)] : List ℚ), [(100:ℚ)]).2.2
      = trimCalls 60 100 [(0:ℚ)] ++ [(100:ℚ)] ∧
    ((100:ℚ), ([(0:ℚ)] : List ℚ), [(100:ℚ)]).2.2.length ≤ 1 ∧
    ∀ t ∈ ((100:ℚ), ([(0:ℚ)] : List ℚ), [(100:ℚ)]).2.2, (100:ℚ) - 60 < t :=
  C1_rate_limiter_admission_invariant 1 [0, 10, 100] (by decide)
    (100, [0], [100])
    (by rw [show runLog (RateLimiter.init 1) [0, 10, 100]
          = [(0, [], [0]), (100, [0], [100])] by
            simp [runLog, RateLimiter.wait_iteration, trimCalls, RateLimiter.init]
            norm_num]
        simp)

/-- C9 (code_bug demonstration): the source's `RateLimiter` has no lock, so
two threads may interleave their trim-check and append steps.  With
`calls_per_minute = 1` and an empty FIFO, both threads observe a free slot and
both admit, leaving 2 timestamps inside the trailing 60-second window —
exceeding the cap of 1 that the spec's lock-protected read-trim-check-append
sequence would enforce. -/
theorem C9_unlocked_race_overadmits :
    (racyInterleaving 1 0 []).2.1 = true ∧ (racyInterleaving 1 0 []).2.2 = true ∧
    1 < (racyInterleaving 1 0 []).1.countP (fun t => decide ((0:ℚ) - 60 < t)) := by
  refine ⟨rfl, rfl, ?_⟩
  norm_num [racyInterleaving, wait_check, wait_append, trimCalls]

/-- C2 counterexample: 10-day range (days 0..9), UTC offset 0, cache holding
days 1, 2 and 3 (keys 86400, 172800, 259200).  The coordinator computes the
7 missing days, but the fetcher is invoked for the full range and derives 10
instants — including the instant of cached day 1 — so cached days are fetched
from the API again, contrary to the claim that exactly the 7 missing instants
are passed. -/
theorem C2_counterexample :
    (coordinator_missing_days 0 0 9 (coordinator_cached_map 0 0 9 c2CacheRows)).length = 7 ∧
    (coordinator_api_instants 0 0 9 (coordinator_cached_map 0 0 9 c2CacheRows)).length = 10 ∧
    fetchInstant 1 ∈ coordinator_api_instants 0 0 9 (coordinator_cached_map 0 0 9 c2CacheRows) ∧
    mapLookup (coordinator_cached_map 0 0 9 c2CacheRows) (dbKeyLocal 0 1) = some 11 := by
  decide

/-- C2 amended: the coordinator computes the missing-day set against the
cache, but whenever at least one day is missing it invokes the range fetcher
with the FULL inclusive date range; the fetcher derives one noon-UTC instant
per day of that range, independent of the cache, so the instants of
already-cached days are fetched from the API as well (de-duplication happens
only at merge time, which never overwrites cached entries). -/
theorem C2_amended_full_range_fetch {α : Type} (o startDay stopDay : Int)
    (m0 : List (Int × α))
    (h : coordinator_missing_days o startDay stopDay m0 ≠ []) :
    coordinator_api_instants o startDay stopDay m0
      = (dayRange startDay stopDay).map fetchInstant ∧
    ∀ d ∈ dayRange startDay stopDay,
      fetchInstant d ∈ coordinator_api_instants o startDay stopDay m0 := by
  unfold coordinator_api_instants
  rw [if_neg h]
  exact ⟨rfl, fun d hd => List.mem_map_of_mem _ hd⟩

/-- Witness for C2's amended claim: a 2-day range with an empty cache — both
days missing, both instants derived. -/
theorem C2_amended_witness :
    coordinator_api_instants 0 0 1 ([] : List (Int × ℕ))
      = (dayRange 0 1).map fetchInstant ∧
    fetchInstant 0 ∈ coordinator_api_instants 0 0 1 ([] : List (Int × ℕ)) := by
  have h := C2_amended_full_range_fetch 0 0 1 ([] : List (Int × ℕ)) (by decide)
  exact ⟨h.1, h.2 0 (by decide)⟩

/-- C3 counterexample: for 2025-05-20 (day number 20228) in a local timezone
one hour east of UTC (offset 3600 s, e.g. CET), the DB cache key computed by
the naive `datetime(y, m, d, 0, 0, 0).timestamp()` is 1747695600, which is NOT
that day's midnight UTC (1747699200); likewise the key the merge step stores a
fetched noon instant under is not midnight UTC. -/
theorem C3_counterexample :
    days_from_civil 2025 5 20 = 20228 ∧
    dbKeyLocal 3600 20228 = 1747695600 ∧
    utcMidnight 20228 = 1747699200 ∧
    dbKeyLocal 3600 20228 ≠ utcMidnight 20228 ∧
    mergeDbKey 3600 (fetchInstant 20228) ≠ utcMidnight 20228 := by
  decide

/-- C3 amended: the cache key for a day is the Unix timestamp of that day's
midnight in the process's LOCAL timezone (equal to midnight UTC exactly when
the local UTC offset is zero); the API query parameter is the day's noon UTC;
and when merging, the key stored under is the local midnight of the instant's
UTC date — the same key the gap computation uses — and (unless the local
offset is UTC-12, i.e. -43200 s) never the noon instant itself. -/
theorem C3_amended_local_midnight_keys (o d : Int) :
    fetchInstant d = utcMidnight d + 43200 ∧
    dbKeyLocal o d = utcMidnight d - o ∧
    (dbKeyLocal o d = utcMidnight d ↔ o = 0) ∧
    mergeDbKey o (fetchInstant d) = dbKeyLocal o d ∧
    (o ≠ -43200 → mergeDbKey o (fetchInstant d) ≠ fetchInstant d) := by
  unfold mergeDbKey utcDayOf fetchInstant dbKeyLocal utcMidnight
  refine ⟨rfl, rfl, by omega, ?_, ?_⟩
  · have h : (86400 * d + 43200) / 86400 = d := by omega
    rw [h]
  · intro hne
    have h : (86400 * d + 43200) / 86400 = d := by omega
    rw [h]
    omega

/-- Witness for C3's amended claim at offset 3600 and day 20228
(2025-05-20). -/
theorem C3_amended_witness :
    mergeDbKey 3600 (fetchInstant 20228) = dbKeyLocal 3600 20228 ∧
    mergeDbKey 3600 (fetchInstant 20228) ≠ fetchInstant 20228 :=
  ⟨(C3_amended_local_midnight_keys 3600 20228).2.2.2.1,
   (C3_amended_local_midnight_keys 3600 20228).2.2.2.2 (by decide)⟩

theorem mapLookup_cons {α : Type} (a : Int) (b : α) (m : List (Int × α)) (k : Int) :
    mapLookup ((a, b) :: m) k = if a = k then some b else mapLookup m k := by
  by_cases h : a = k <;> simp [mapLookup, List.find?_cons, h]

theorem mergeFetched_preserves {α : Type} (o : Int) (k : Int) (v : α) :
    ∀ (fetched : List (Int × α)) (m0 : List (Int × α)),
      mapLookup m0 k = some v →
      mapLookup (mergeFetched o m0 fetched).1 k = some v ∧
      ∀ w ∈ (mergeFetched o m0 fetched).2, w.1 ≠ k := by
  intro fetched
  induction fetched with
  | nil => intro m0 hk; rw [mergeFetched]; exact ⟨hk, by simp⟩
  | cons p rest ih =>
    intro m0 hk
    rw [mergeFetched]
    by_cases hsome : (mapLookup m0 (mergeDbKey o p.1)).isSome
    · simp only [hsome, if_true]
      exact ih m0 hk
    · simp only [hsome, Bool.false_eq_true, if_false]
      have hne : mergeDbKey o p.1 ≠ k := by
        intro he
        rw [he, hk] at hsome
        simp at hsome
      have hk' : mapLookup ((mergeDbKey o p.1, p.2) :: m0) k = some v := by
        rw [mapLookup_cons, if_neg hne]
        exact hk
      have h := ih ((mergeDbKey o p.1, p.2) :: m0) hk'
      refine ⟨h.1, ?_⟩
      intro w hw
      rcases List.mem_cons.mp hw with rfl | hw'
      · exact hne
      · exact h.2 w hw'

/-- C4: any DayKey already bound in the in-memory map before the merge of a
range fetch's results is never overwritten by that merge — the final map still
binds it to its original value — and no cache write (`set_cache` call) is
performed for that key: a fetched day is written to cache only when its DayKey
is still absent from the map at the moment it is processed. -/
theorem C4_merge_never_overwrites {α : Type} (o : Int) (m0 : List (Int × α))
    (fetched : List (Int × α)) (k : Int) (v : α)
    (hk : mapLookup m0 k = some v) :
    mapLookup (mergeFetched o m0 fetched).1 k = some v ∧
    ∀ w ∈ (mergeFetched o m0 fetched).2, w.1 ≠ k :=
  mergeFetched_preserves o k v fetched m0 hk

/-- Witness for C4: day 0 is cached (key 0, value 7); the fetch returns new
data 9 for the same day (noon instant 43200, which merges to key 0); the map
keeps 7 and no cache write targets key 0. -/
theorem C4_witness :
    mapLookup (mergeFetched 0 [((0:Int), (7:ℕ))] [(43200, 9)]).1 0 = some 7 ∧
    ∀ w ∈ (mergeFetched 0 [((0:Int), (7:ℕ))] [(43200, 9)]).2, w.1 ≠ 0 :=
  C4_merge_never_overwrites 0 [(0, 7)] [(43200, 9)] 0 7 (by decide)

theorem submitLoop_eq_take (maxc : ℕ) :
    ∀ (l : List Int) (made : ℕ), submitLoop maxc made l = l.take (maxc - made) := by
  intro l
  induction l with
  | nil => intro made; simp [submitLoop]
  | cons ts rest ih =>
    intro made
    rw [submitLoop]
    by_cases h : maxc ≤ made
    · rw [if_pos h]
      have h0 : maxc - made = 0 := by omega
      rw [h0]
      rfl
    · rw [if_neg h]
      have h1 : maxc - made = (maxc - (made + 1)) + 1 := by omega
      rw [ih (made + 1), h1]
      rfl

theorem submitLoop_240 (l : List Int) : submitLoop 240 0 l = l.take 240 := by
  rw [submitLoop_eq_take]

theorem dayRange_pairwise_lt (a b : Int) : (dayRange a b).Pairwise (· < ·) := by
  unfold dayRange
  exact (List.pairwise_lt_range _).map _
    (fun i j h => by show a + (i : Int) < a + (j : Int); omega)

theorem instants_pairwise_lt (a b : Int) :
    ((dayRange a b).map fetchInstant).Pairwise (· < ·) :=
  (dayRange_pairwise_lt a b).map _ (fun i j h => by simp only [fetchInstant]; omega)

theorem mem_collectResults {α : Type} {outs : List (DayFetch α)} {p : Int × α} :
    p ∈ collectResults outs ↔
      ∃ df ∈ outs, df.result.1 = p.1 ∧ df.result.2 = some p.2 := by
  unfold collectResults
  rw [List.mem_filterMap]
  constructor
  · rintro ⟨df, hdf, hmap⟩
    rcases Option.map_eq_some'.mp hmap with ⟨d, hd, hpd⟩
    refine ⟨df, hdf, ?_, ?_⟩
    · rw [← hpd]
    · rw [hd, ← hpd]
  · rintro ⟨df, hdf, h1, h2⟩
    refine ⟨df, hdf, ?_⟩
    rw [h2, Option.map_some']
    rw [h1]

/-- C5: for any non-empty module API key, the range fetcher submits exactly
the first `max_total_calls = 240` instants of its generated list, in input
order; every key of the result map is a submitted instant, and any instant
beyond the first 240 has no key in the result map — the excess is silently
dropped (the function still returns a map, it raises nothing). -/
theorem C5_capacity_truncation {α : Type} (mk : Option String) (startDay stopDay : Int)
    (arg : String) (net : String → Int → NetResult α)
    (hk : moduleKeyMissing mk = false) :
    (get_historical_weather_in_range_concurrently mk startDay stopDay arg net).submitted
      = ((dayRange startDay stopDay).map fetchInstant).take 240 ∧
    (get_historical_weather_in_range_concurrently mk startDay stopDay arg net).submitted.length
      ≤ 240 ∧
    (∀ p ∈ (get_historical_weather_in_range_concurrently mk startDay stopDay arg net).results,
      p.1 ∈ (get_historical_weather_in_range_concurrently mk startDay stopDay arg net).submitted) ∧
    (∀ ts ∈ ((dayRange startDay stopDay).map fetchInstant).drop 240,
      ts ∉ ((get_historical_weather_in_range_concurrently mk startDay stopDay
        arg net).results.map Prod.fst)) := by
  have hsub : (get_historical_weather_in_range_concurrently mk startDay stopDay
      arg net).submitted = ((dayRange startDay stopDay).map fetchInstant).take 240 := by
    simp only [get_historical_weather_in_range_concurrently, hk, Bool.false_eq_true, if_false]
    rw [submitLoop_240]
  have hres : ∀ p ∈ (get_historical_weather_in_range_concurrently mk startDay stopDay
      arg net).results,
      p.1 ∈ (get_historical_weather_in_range_concurrently mk startDay stopDay
        arg net).submitted := by
    intro p hp
    simp only [get_historical_weather_in_range_concurrently, hk, Bool.false_eq_true,
      if_false] at hp ⊢
    rcases mem_collectResults.mp hp with ⟨df, hdf, h1, _⟩
    rcases List.mem_map.mp hdf with ⟨ts, hts, hdfeq⟩
    rw [← hdfeq] at h1
    exact h1 ▸ hts
  refine ⟨hsub, ?_, hres, ?_⟩
  · rw [hsub]
    simp only [List.length_take]
    omega
  · intro ts hts hmem
    rcases List.mem_map.mp hmem with ⟨p, hp, hfst⟩
    have h1 := hres p hp
    rw [hsub, hfst] at h1
    have hpw := instants_pairwise_lt startDay stopDay
    have hsplit := List.take_append_drop 240 ((dayRange startDay stopDay).map fetchInstant)
    rw [← hsplit] at hpw
    exact lt_irrefl ts ((List.pairwise_append.mp hpw).2.2 ts h1 ts hts)

/-- Witness for C5 at a 300-day range (days 0..299): 240 instants submitted,
and the instant of day 250 (beyond the first 240) has no key in the result
map. -/
theorem C5_witness :
    (get_historical_weather_in_range_concurrently (some "K") 0 299 "K"
      (fun _ _ => (NetResult.connError : NetResult ℕ))).submitted
      = ((dayRange 0 299).map fetchInstant).take 240 ∧
    fetchInstant 250 ∉ ((get_historical_weather_in_range_concurrently (some "K") 0 299 "K"
      (fun _ _ => (NetResult.connError : NetResult ℕ))).results.map Prod.fst) := by
  have h := C5_capacity_truncation (some "K") 0 299 "K"
    (fun _ _ => (NetResult.connError : NetResult ℕ)) (by rfl)
  refine ⟨h.1, h.2.2.2 (fetchInstant 250) (by decide)⟩

/-- C10: the guard checks the MODULE-LEVEL `API_KEY` global, not the `api_key`
parameter: when the module key is unset or empty the fetcher returns an empty
map after zero HTTP calls and zero rate-limiter admissions, whatever `api_key`
argument was passed; and when the module key is non-empty, submission proceeds
even if the `api_key` argument is empty. -/
theorem C10_module_api_key_guard {α : Type} (mk : Option String) (startDay stopDay : Int)
    (arg : String) (net : String → Int → NetResult α) :
    (moduleKeyMissing mk = true →
      (get_historical_weather_in_range_concurrently mk startDay stopDay arg net).results = [] ∧
      (get_historical_weather_in_range_concurrently mk startDay stopDay arg net).netCalls = 0 ∧
      (get_historical_weather_in_range_concurrently mk startDay stopDay arg net).admits = 0 ∧
      (get_historical_weather_in_range_concurrently mk startDay stopDay arg net).submitted = []) ∧
    (moduleKeyMissing mk = false →
      (get_historical_weather_in_range_concurrently mk startDay stopDay arg net).submitted
        = ((dayRange startDay stopDay).map fetchInstant).take 240) := by
  constructor
  · intro h
    simp [get_historical_weather_in_range_concurrently, h]
  · intro h
    simp only [get_historical_weather_in_range_concurrently, h, Bool.false_eq_true, if_false]
    rw [submitLoop_240]

/-- Witness for C10: with the module key unset (`None`) the run is completely
inert even though a non-empty `api_key` argument was passed; with a non-empty
module key, submission happens even though the `api_key` argument is empty. -/
theorem C10_witness :
    (get_historical_weather_in_range_concurrently none 0 9 "k"
      (fun _ _ => (NetResult.connError : NetResult ℕ))).results = [] ∧
    (get_historical_weather_in_range_concurrently none 0 9 "k"
      (fun _ _ => (NetResult.connError : NetResult ℕ))).netCalls = 0 ∧
    (get_historical_weather_in_range_concurrently none 0 9 "k"
      (fun _ _ => (NetResult.connError : NetResult ℕ))).admits = 0 ∧
    (get_historical_weather_in_range_concurrently (some "A") 0 9 ""
      (fun _ _ => (NetResult.connError : NetResult ℕ))).submitted
      = ((dayRange 0 9).map fetchInstant).take 240 := by
  have h1 := (C10_module_api_key_guard none 0 9 "k"
    (fun _ _ => (NetResult.connError : NetResult ℕ))).1 (by rfl)
  have h2 := (C10_module_api_key_guard (some "A") 0 9 ""
    (fun _ _ => (NetResult.connError : NetResult ℕ))).2 (by rfl)
  exact ⟨h1.1, h1.2.1, h1.2.2.1, h2⟩

/-- C6 counterexample: the claim says any NON-SUCCESS HTTP status yields
`(instant, absent)`, but `response.raise_for_status()` only raises for
statuses ≥ 400: a 304 response with a parseable JSON body is returned as
data, although 304 is not a success (2xx) status. -/
theorem C6_counterexample :
    (get_historical_weather_for_day 0 (NetResult.response 304 (some (5:ℕ)))).result
      = (0, some 5) ∧
    specSuccessStatus 304 = false := by
  decide

/-- C6 amended: the single-day fetch first calls the limiter's admit
operation and then performs exactly one HTTP GET; it always returns the pair
`(instant, ·)` for its instant and never raises: the data component is
`some j` exactly when the response had a status < 400 (the statuses
`raise_for_status` does not treat as errors) and a well-formed body `j`; on a
network error, an HTTP status ≥ 400, or a malformed body it is `None`; and any
instant all of whose outcomes are `None` has no key in the collected aggregate
result map. -/
theorem C6_amended_fetch_total {α : Type} (ts : Int) (net : NetResult α) :
    (get_historical_weather_for_day ts net).events
      = [FetchEvent.admitSlot, FetchEvent.httpGet] ∧
    (get_historical_weather_for_day ts net).result.1 = ts ∧
    (∀ j : α, (get_historical_weather_for_day ts net).result.2 = some j ↔
      ∃ s : ℕ, net = NetResult.response s (some j) ∧ s < 400) ∧
    (∀ (outs : List (DayFetch α)) (t : Int),
      (∀ df ∈ outs, df.result.1 = t → df.result.2 = none) →
      t ∉ (collectResults outs).map Prod.fst) := by
  refine ⟨rfl, rfl, ?_, ?_⟩
  · intro j
    cases net with
    | connError =>
      simp only [get_historical_weather_for_day]
      constructor
      · intro h
        exact absurd h (by simp)
      · rintro ⟨s, hnet, _⟩
        exact absurd hnet (by simp)
    | response s body =>
      by_cases hs : 400 ≤ s
      · simp only [get_historical_weather_for_day, if_pos hs]
        constructor
        · intro h
          exact absurd h (by simp)
        · rintro ⟨s', hnet, hlt⟩
          injection hnet with h1 h2
          omega
      · simp only [get_historical_weather_for_day, if_neg hs]
        constructor
        · intro h
          exact ⟨s, by rw [h], by omega⟩
        · rintro ⟨s', hnet, _⟩
          cases hnet
          rfl
  · intro outs t h hmem
    rcases List.mem_map.mp hmem with ⟨p, hp, hfst⟩
    rcases mem_collectResults.mp hp with ⟨df, hdf, h1, h2⟩
    have := h df hdf (by rw [h1, hfst])
    rw [this] at h2
    exact absurd h2 (by simp)

/-- Witness for C6's amended claim: a 200 response with body 42 produces
`some 42`, and an instant whose only outcome was `None` is absent from the
collected result map. -/
theorem C6_witness :
    (get_historical_weather_for_day 7 (NetResult.response 200 (some (42:ℕ)))).result.2
      = some 42 ∧
    (3:Int) ∉ ((collectResults
      [⟨[FetchEvent.admitSlot, FetchEvent.httpGet], (3, (none : Option ℕ))⟩]).map
        Prod.fst) := by
  have h := C6_amended_fetch_total (α := ℕ) 7 (NetResult.response 200 (some 42))
  refine ⟨(h.2.2.1 42).mpr ⟨200, rfl, by omega⟩, ?_⟩
  refine h.2.2.2 _ 3 ?_
  intro df hdf _
  rcases List.mem_singleton.mp hdf with rfl
  rfl

theorem assembleDay_fst (o : Int) (m : List (Int × ApiData)) (d : Int) (p : Int × ℚ)
    (h : assembleDay o m d = some p) : p.1 = d := by
  unfold assembleDay at h
  split at h
  · split at h
    · split at h
      · injection h with h'
        rw [← h']
      · exact absurd h (by simp)
    · exact absurd h (by simp)
  · exact absurd h (by simp)

theorem assembleDay_temps (o : Int) (m : List (Int × ApiData)) (d : Int) (p : Int × ℚ)
    (h : assembleDay o m d = some p) :
    dayTemps (mapLookup m (dbKeyLocal o d)) ≠ [] := by
  unfold assembleDay at h
  split at h
  case _ hours heq =>
    rw [heq]
    split at h
    · split at h
      case _ hpos =>
        simp only [dayTemps]
        intro he
        rw [he] at hpos
        simp at hpos
      · exact absurd h (by simp)
    · exact absurd h (by simp)
  case _ =>
    exact absurd h (by simp)

theorem filterMap_keys_sublist (l : List Int) (f : Int → Option (Int × ℚ))
    (hf : ∀ d p, f d = some p → p.1 = d) :
    List.Sublist ((l.filterMap f).map Prod.fst) l := by
  induction l with
  | nil => simp
  | cons a t ih =>
    rw [List.filterMap_cons]
    cases h : f a with
    | none => exact ih.cons a
    | some p =>
      rw [List.map_cons, hf a p h]
      exact ih.cons₂ a

/-- C7: the assembled daily-average series (i) has strictly increasing dates —
ascending order with no duplicates; (ii) contains, for every day of the range
whose looked-up DayRecord is present with at least one hourly sample carrying
a temperature, the point whose value is the arithmetic mean of those
temperatures rounded to one decimal place; and (iii) contains no point for a
day with zero usable samples (absent record, missing/empty hourly list, or no
`temp` fields) — such days are silently omitted. -/
theorem C7_daily_average_series (o startDay stopDay : Int) (m : List (Int × ApiData)) :
    ((assembleSeries o startDay stopDay m).map Prod.fst).Pairwise (· < ·) ∧
    (∀ d ∈ dayRange startDay stopDay, ∀ hours : List HourSample,
      mapLookup m (dbKeyLocal o d) = some (some hours) → hours.filterMap id ≠ [] →
      (d, round1 ((hours.filterMap id).sum / (((hours.filterMap id).length : ℕ) : ℚ)))
        ∈ assembleSeries o startDay stopDay m) ∧
    (∀ d, dayTemps (mapLookup m (dbKeyLocal o d)) = [] →
      d ∉ ((assembleSeries o startDay stopDay m).map Prod.fst)) := by
  refine ⟨?_, ?_, ?_⟩
  · exact (dayRange_pairwise_lt startDay stopDay).sublist
      (filterMap_keys_sublist _ _ (assembleDay_fst o m))
  · intro d hd hours hlk htemps
    refine List.mem_filterMap.mpr ⟨d, hd, ?_⟩
    unfold assembleDay
    rw [hlk]
    have hh : hours ≠ [] := by
      intro he
      rw [he] at htemps
      exact htemps rfl
    show (if 0 < hours.length then
        if 0 < (hours.filterMap id).length then
          some (d, round1 ((hours.filterMap id).sum / (((hours.filterMap id).length : ℕ) : ℚ)))
        else none
      else none)
      = some (d, round1 ((hours.filterMap id).sum / (((hours.filterMap id).length : ℕ) : ℚ)))
    rw [if_pos (List.length_pos.mpr hh), if_pos (List.length_pos.mpr htemps)]
  · intro d hdt hmem
    rcases List.mem_map.mp hmem with ⟨p, hp, hfst⟩
    rcases List.mem_filterMap.mp hp with ⟨d', hd', hfd'⟩
    have hd'd : d' = d := by rw [← assembleDay_fst o m d' p hfd', hfst]
    rw [hd'd] at hfd'
    exact assembleDay_temps o m d p hfd' hdt

/-- Witness for C7: day 0 carries hourly temps 10, 12, 14 — its emitted
average is 12.0, matching the spec's example — and day 1, with no cache
entry, is omitted from the series. -/
theorem C7_witness :
    ((0:Int), (12:ℚ)) ∈ assembleSeries 0 0 2 [(0, some [some 10, some 12, some 14])] ∧
    (1:Int) ∉ ((assembleSeries 0 0 2
      [(0, some [some 10, some 12, some 14])]).map Prod.fst) := by
  have h := C7_daily_average_series 0 0 2 [(0, some [some 10, some 12, some 14])]
  constructor
  · have h2 := h.2.1 0 (by decide) [some 10, some 12, some 14] (by decide) (by decide)
    have h36 : (([some (10:ℚ), some 12, some 14].filterMap id).sum
        / ((([some (10:ℚ), some 12, some 14].filterMap id).length : ℕ) : ℚ)) = 12 := by
      simp [List.filterMap]
      norm_num
    have he : round1 ((([some (10:ℚ), some 12, some 14].filterMap id).sum)
        / ((([some (10:ℚ), some 12, some 14].filterMap id).length : ℕ) : ℚ)) = 12 := by
      rw [h36]
      unfold round1 round_half_even
      norm_num
    rwa [he] at h2
  · exact h.2.2 1 (by decide)

theorem selectLatest_eq_none {α : Type} :
    ∀ (l : List (CacheRow α)), selectLatest l = none → l = [] := by
  intro l
  cases l with
  | nil => intro _; rfl
  | cons a t =>
    intro h
    rw [selectLatest] at h
    cases hs : selectLatest t with
    | none => rw [hs, selectBetter] at h; exact absurd h (by simp)
    | some b =>
      rw [hs, selectBetter] at h
      by_cases hle : b.fetch_ts ≤ a.fetch_ts
      · rw [if_pos hle] at h; exact absurd h (by simp)
      · rw [if_neg hle] at h; exact absurd h (by simp)

theorem selectLatest_spec {α : Type} :
    ∀ (l : List (CacheRow α)) (r : CacheRow α), selectLatest l = some r →
      r ∈ l ∧ ∀ x ∈ l, x.fetch_ts ≤ r.fetch_ts := by
  intro l
  induction l with
  | nil => intro r h; simp [selectLatest] at h
  | cons a t ih =>
    intro r h
    rw [selectLatest] at h
    cases hs : selectLatest t with
    | none =>
      rw [hs, selectBetter] at h
      injection h with h'
      subst h'
      have ht := selectLatest_eq_none t hs
      subst ht
      exact ⟨List.mem_cons_self _ _, by simp⟩
    | some b =>
      rw [hs, selectBetter] at h
      by_cases hle : b.fetch_ts ≤ a.fetch_ts
      · rw [if_pos hle] at h
        injection h with h'
        subst h'
        refine ⟨List.mem_cons_self _ _, ?_⟩
        intro x hx
        rcases List.mem_cons.mp hx with rfl | hx'
        · exact le_refl _
        · exact le_trans ((ih b hs).2 x hx') hle
      · rw [if_neg hle] at h
        injection h with h'
        subst h'
        refine ⟨List.mem_cons_of_mem _ (ih b hs).1, ?_⟩
        intro x hx
        rcases List.mem_cons.mp hx with rfl | hx'
        · exact le_of_not_le hle
        · exact (ih b hs).2 x hx'

theorem find?_data_map {α : Type} (k f : Int) :
    ∀ (rows : List (CacheRow α)),
      ((rows.map (fun r => (⟨r.data_ts, f, r.data⟩ : CacheRow α))).find?
          (fun r => decide (r.data_ts = k))).bind (fun r => r.data)
        = (rows.find? (fun r => decide (r.data_ts = k))).bind (fun r => r.data) := by
  intro rows
  induction rows with
  | nil => rfl
  | cons r t ih =>
    rw [List.map_cons]
    by_cases hk : r.data_ts = k
    · rw [List.find?_cons_of_pos _ (by simp [hk]), List.find?_cons_of_pos _ (by simp [hk])]
      rfl
    · rw [List.find?_cons_of_neg _ (by simp [hk]), List.find?_cons_of_neg _ (by simp [hk])]
      exact ih

/-- C8: a current-weather lookup (no DayKey, i.e. `target_data_ts = None`)
returns a record only if it comes from a row whose fetch-timestamp is within
the last `CACHE_DURATION_SECONDS = 43200` seconds, and that row is the most
recently fetched among the qualifying rows; a historical lookup by explicit
DayKey is completely insensitive to the current time and to the rows'
fetch-timestamps — day-keyed entries never expire. -/
theorem C8_snapshot_freshness {α : Type} (rows : List (CacheRow α)) (now now' : Int)
    (v : α) (k : Int) :
    (get_cache rows now none = some v →
      ∃ r ∈ rows, r.data = some v ∧ now - CACHE_DURATION_SECONDS < r.fetch_ts ∧
        ∀ r' ∈ rows, now - CACHE_DURATION_SECONDS < r'.fetch_ts →
          r'.fetch_ts ≤ r.fetch_ts) ∧
    get_cache rows now (some k) = get_cache rows now' (some k) ∧
    ∀ f : Int, get_cache (rows.map (fun r => ⟨r.data_ts, f, r.data⟩)) now (some k)
      = get_cache rows now' (some k) := by
  refine ⟨?_, rfl, fun f => find?_data_map k f rows⟩
  intro h
  simp only [get_cache] at h
  rcases Option.bind_eq_some.mp h with ⟨r, hsel, hdata⟩
  have hspec := selectLatest_spec _ r hsel
  have hmem := List.mem_filter.mp hspec.1
  refine ⟨r, hmem.1, hdata, by simpa using hmem.2, ?_⟩
  intro r' hr' hfresh
  exact hspec.2 r' (List.mem_filter.mpr ⟨hr', by simpa using hfresh⟩)

/-- Witness for C8: at lookup time 43250 the snapshot query returns the row
fetched at time 100 (the only fresh one), and the day-keyed lookup of key
86400 gives the same answer at time 43250 and at time 999999999 — no
expiry. -/
theorem C8_witness :
    (∃ r ∈ c8CacheRows, r.data = some 1 ∧ 43250 - CACHE_DURATION_SECONDS < r.fetch_ts ∧
      ∀ r' ∈ c8CacheRows, 43250 - CACHE_DURATION_SECONDS < r'.fetch_ts →
        r'.fetch_ts ≤ r.fetch_ts) ∧
    get_cache c8CacheRows 43250 (some 86400) = get_cache c8CacheRows 999999999 (some 86400) := by
  have h := C8_snapshot_freshness c8CacheRows 43250 999999999 1 86400
  exact ⟨h.1 (by decide), h.2.1⟩
